import Mathlib

/-!
Verification of the Shunyata distributed judge against its specification.

The development shallowly embeds the Python sources:
  - central-judge-server/judge.py (the live definitions after the
    commented-out draft: lines 153-302),
  - client-environment-agent/executor.py,
  - client-environment-agent/agent.py (job tracking routes),
  - client-environment-agent/lockdown.py.

Host effects (subprocess execution, psutil memory sampling, the
SequenceMatcher similarity ratio, file input and output) are abstracted as
explicit parameters; everything else is translated directly from the code.
-/

namespace Shunyata

/-! # Python dict model

Scoreboard and problem-set documents are JSON objects; Python dicts are
insertion ordered, so they are modelled as association lists where
assignment replaces the value at an existing key in place and otherwise
appends at the end. -/

/-- Python dict assignment `d[k] = v`: replace in place, else append. -/
def setKey : List (String × α) → String → α → List (String × α)
  | [], k, v => [(k, v)]
  | (k', v') :: rest, k, v =>
      if k' = k then (k, v) :: rest else (k', v') :: setKey rest k v

/-- Python dict lookup `d.get(k)`. -/
def getKey : List (String × α) → String → Option α
  | [], _ => none
  | (k', v') :: rest, k => if k' = k then some v' else getKey rest k

/-! # Data model (judge.py) -/

/-- A submission as received by the judge: the four fields of the
submission dict used throughout judge.py. -/
structure SubmissionInfo where
  participant_name : String
  problem_id : String
  language : String
  code : String
deriving DecidableEq, Repr

/-- One test case: `{"input": ..., "output": ...}`. -/
structure TestCase where
  input : String
  output : String
deriving DecidableEq, Repr

/-- One problem from problems.json. -/
structure Problem where
  time_limit : Nat
  memory_limit : Nat
  sample_test_cases : List TestCase
  hidden_test_cases : List TestCase
deriving DecidableEq, Repr

/-- A per-problem scoreboard record as written by `update_scoreboard`
(judge.py 268-274): `code` and `details` are optional because records
read back from scoreboard.json may lack them. -/
structure ProblemRecord where
  verdict : String
  timestamp : Nat
  code : Option String
  details : Option String
deriving DecidableEq, Repr

/-- A participant entry: `{"score": ..., "problems_solved": {...}}`. -/
structure Entry where
  score : Int
  problems_solved : List (String × ProblemRecord)
deriving DecidableEq, Repr

/-- The scoreboard document: participant name to entry. -/
abbrev Board := List (String × Entry)

/-- The fresh entry created for an unknown participant
(judge.py 264-265). -/
def emptyEntry : Entry := { score := 0, problems_solved := [] }

/-! # Scoreboard update (judge.py 258-282) -/

/-- The in-memory modification `update_scoreboard` performs on the loaded
scoreboard (judge.py 263-280), before persisting: ensure the user entry,
unconditionally overwrite the per-problem record with a fresh record
carrying the submission code, and add 100 to the score when the verdict
is Accepted and the update is not a plagiarism event. -/
def apply_scoreboard_update (board : Board) (sub : SubmissionInfo)
    (verdict details : String) (plag : Bool) (now : Nat) : Board :=
  let board1 := if (getKey board sub.participant_name).isSome then board
    else setKey board sub.participant_name emptyEntry
  let entry := (getKey board1 sub.participant_name).getD emptyEntry
  let record : ProblemRecord :=
    { verdict := verdict, timestamp := now, code := some sub.code,
      details := if details = "" then none else some details }
  let entry2 := { entry with
    problems_solved := setKey entry.problems_solved sub.problem_id record }
  let entry3 := if verdict = "Accepted" ∧ plag = false then
      { entry2 with score := entry2.score + 100 } else entry2
  setKey board sub.participant_name entry3

/-! # Association-list lemmas -/

theorem getKey_setKey_self (l : List (String × α)) (k : String) (v : α) :
    getKey (setKey l k v) k = some v := by
  induction l with
  | nil => simp [setKey, getKey]
  | cons p rest ih =>
      obtain ⟨k', v'⟩ := p
      by_cases h : k' = k
      · simp [setKey, getKey, h]
      · simp [setKey, getKey, h, ih]

theorem getKey_isSome_getD (l : List (String × α)) (k : String) (d : α)
    (h : (getKey l k).isSome = false) : (getKey l k).getD d = d := by
  cases hk : getKey l k with
  | none => simp
  | some v => rw [hk] at h; simp at h

/-- The entry stored for the submitting participant after
`apply_scoreboard_update`, in closed form. -/
theorem apply_update_entry (board : Board) (sub : SubmissionInfo)
    (verdict details : String) (plag : Bool) (now : Nat) :
    getKey (apply_scoreboard_update board sub verdict details plag now)
        sub.participant_name
      = some (
        let old := (getKey board sub.participant_name).getD emptyEntry
        let entry2 := { old with
          problems_solved := setKey old.problems_solved sub.problem_id
            { verdict := verdict, timestamp := now, code := some sub.code,
              details := if details = "" then none else some details } }
        if verdict = "Accepted" ∧ plag = false then
          { entry2 with score := entry2.score + 100 } else entry2) := by
  unfold apply_scoreboard_update
  by_cases h : (getKey board sub.participant_name).isSome
  · simp only [h, if_true]
    exact getKey_setKey_self ..
  · simp only [Bool.not_eq_true] at h
    simp only [h, Bool.false_eq_true, if_false, getKey_setKey_self,
      Option.getD_some, getKey_isSome_getD _ _ _ h]

/-- The number of problem identifiers whose current record has verdict
Accepted, as in the specification's score invariant. -/
def acceptedCount (e : Entry) : Nat :=
  (e.problems_solved.filter (fun p => p.2.verdict == "Accepted")).length

/-- Current record stored for a participant and problem. -/
def recordOf (b : Board) (user pid : String) : Option ProblemRecord :=
  (getKey b user).bind (fun e => getKey e.problems_solved pid)

def subAlice : SubmissionInfo :=
  { participant_name := "alice", problem_id := "P1", language := "python",
    code := "a,b=map(int,input().split());print(a+b)" }

/-- Scoreboard after alice's first Accepted update on P1. -/
def boardOnce : Board := apply_scoreboard_update [] subAlice "Accepted" "" false 0

/-- Scoreboard after a second Accepted update for the same problem. -/
def boardTwice : Board := apply_scoreboard_update boardOnce subAlice "Accepted" "" false 1

/-- Scoreboard after a later Wrong Answer update on the already accepted
problem. -/
def boardWrong : Board :=
  apply_scoreboard_update boardOnce { subAlice with code := "print(0)" }
    "Wrong Answer" "Failed on test 1" false 5

/-- C1 counterexample: two Accepted updates by the same participant for
the same problem leave one Accepted record but a score of 200, so the
score does not equal 100 times the number of accepted records after
every update. -/
theorem c1_counterexample :
    ∃ e, getKey boardTwice "alice" = some e ∧ e.score = 200 ∧
      acceptedCount e = 1 ∧ e.score ≠ 100 * (acceptedCount e : Int) :=
  ⟨(getKey boardTwice "alice").getD emptyEntry, by decide, by decide,
    by decide, by decide⟩

/-- C1 (amended): the score is never recomputed from the record set;
each `update_scoreboard` call adds exactly 100 to the participant's
previous score when the verdict is Accepted and the update is not a
plagiarism event, and leaves the score unchanged otherwise, so repeated
accepts on one problem drift the score away from
100 times the accepted-record count. -/
theorem c1_score_increment (board : Board) (sub : SubmissionInfo)
    (verdict details : String) (plag : Bool) (now : Nat) :
    ∃ e, getKey (apply_scoreboard_update board sub verdict details plag now)
        sub.participant_name = some e ∧
      e.score = ((getKey board sub.participant_name).getD emptyEntry).score
        + (if verdict = "Accepted" ∧ plag = false then 100 else 0) := by
  refine ⟨_, apply_update_entry .., ?_⟩
  by_cases h : verdict = "Accepted" ∧ plag = false
  · simp [h]
  · simp [h]

/-- C2 counterexample: after alice's record for P1 has verdict Accepted,
a further Wrong Answer update overwrites the stored record, so
first-accept-wins does not hold. -/
theorem c2_counterexample :
    (recordOf boardOnce "alice" "P1").map ProblemRecord.verdict
        = some "Accepted" ∧
      (recordOf boardWrong "alice" "P1").map ProblemRecord.verdict
        = some "Wrong Answer" :=
  ⟨by decide, by decide⟩

/-- C2 (amended): every scoreboard update unconditionally overwrites the
stored record for the participant and problem with a fresh record for the
new attempt, regardless of any previously stored Accepted verdict; the
score, however, is unchanged by an update whose verdict is not
Accepted. -/
theorem c2_unconditional_overwrite (board : Board) (sub : SubmissionInfo)
    (verdict details : String) (plag : Bool) (now : Nat) :
    ∃ e, getKey (apply_scoreboard_update board sub verdict details plag now)
        sub.participant_name = some e ∧
      getKey e.problems_solved sub.problem_id
        = some { verdict := verdict, timestamp := now, code := some sub.code,
                 details := if details = "" then none else some details } ∧
      e.score = ((getKey board sub.participant_name).getD emptyEntry).score
        + (if verdict = "Accepted" ∧ plag = false then 100 else 0) := by
  refine ⟨_, apply_update_entry .., ?_, ?_⟩
  · by_cases h : verdict = "Accepted" ∧ plag = false
    · simp [h, getKey_setKey_self]
    · simp [h, getKey_setKey_self]
  · by_cases h : verdict = "Accepted" ∧ plag = false
    · simp [h]
    · simp [h]

/-! # Plagiarism detector (judge.py 238-255)

`SequenceMatcher(None, a, b).ratio()` is a host library function; it is
abstracted as an explicit similarity parameter `sim` valued in the exact
rationals (the source compares binary floats; the threshold comparison is
modelled exactly). -/

/-- `SIMILARITY_THRESHOLD = 0.90` (judge.py 162), given directly in
lowest terms so the comparison computes. -/
def SIMILARITY_THRESHOLD : ℚ := ⟨9, 10, by norm_num, by norm_num⟩

/-- The threshold is the rational nine tenths. -/
theorem SIMILARITY_THRESHOLD_eq : SIMILARITY_THRESHOLD = 9 / 10 := by
  norm_num [SIMILARITY_THRESHOLD, Rat.mk'_eq_divInt, Rat.divInt_eq_div]

/-- Rendering of the percent interpolation in the detection message
(judge.py 252); binary-float formatting is abstracted to an exact
rational rendering. -/
def percentText (q : ℚ) : String := toString (q * 100) ++ "%"

/-- The message built when a candidate crosses the threshold
(judge.py 252). -/
def plagMessage (me user : String) (s : ℚ) : String :=
  "Submission " ++ me ++ " is " ++ percentText s ++ " similar to " ++ user

/-- `check_plagiarism` (judge.py 238-255): scan the scoreboard in
insertion order, skip the submitting participant, skip users with no
record for this problem or with a missing or empty code snapshot, and
return a detection with the message on the first candidate whose
similarity reaches the threshold. -/
def check_plagiarism (sim : String → String → ℚ) (sub : SubmissionInfo) :
    Board → Bool × String
  | [] => (false, "")
  | (user, data) :: rest =>
      if user = sub.participant_name then check_plagiarism sim sub rest
      else
        match getKey data.problems_solved sub.problem_id with
        | none => check_plagiarism sim sub rest
        | some r =>
            match r.code with
            | none => check_plagiarism sim sub rest
            | some other_code =>
                if other_code = "" then check_plagiarism sim sub rest
                else if SIMILARITY_THRESHOLD ≤ sim sub.code other_code then
                  (true, plagMessage sub.participant_name user
                    (sim sub.code other_code))
                else check_plagiarism sim sub rest

/-! # Persistence (judge.py 168-182) -/

/-- The scoreboard file as the judge can observe it: absent, present but
not valid JSON, or a parsed document. -/
inductive FileState where
  | missing
  | corrupt
  | valid (b : Board)
deriving DecidableEq, Repr

/-- `load_json` (judge.py 168-175): a missing file or a JSON decode
error yields the empty document. -/
def load_json : FileState → Board
  | .missing => []
  | .corrupt => []
  | .valid b => b

/-- `save_json_atomic` (judge.py 178-182): the temp-write plus atomic
replace either fully succeeds or raises; `writeOk` abstracts the host
file-system outcome, and a raised error is not caught anywhere in the
function. -/
def save_json_atomic (writeOk : Bool) (b : Board) : Except String FileState :=
  if writeOk then .ok (.valid b) else .error "IOError"

/-- `update_scoreboard` (judge.py 258-282): load the scoreboard file,
apply the in-memory update, persist atomically. The function body has no
try-except, so a persist failure propagates to the caller. -/
def update_scoreboard (fs : FileState) (writeOk : Bool)
    (sub : SubmissionInfo) (verdict details : String) (plag : Bool)
    (now : Nat) : Except String FileState :=
  save_json_atomic writeOk
    (apply_scoreboard_update (load_json fs) sub verdict details plag now)

/-! # Execution and verdict pipeline (judge.py 185-235) -/

/-- Outcome of one child process run, as the host reports it to
`_run_with_limits`: normal exit with exit code and captured streams, or
a wall-clock timeout raised by communicate. -/
inductive ProcResult where
  | exited (exitCode : Int) (out err : String)
  | timeout
deriving DecidableEq, Repr

/-- The result dict `_run_with_limits` returns. -/
structure RunResult where
  verdict : String
  details : Option String
  output : Option String
deriving DecidableEq, Repr

/-- `_run_with_limits` (judge.py 196-205). Note the live function takes
no memory limit and reads no memory information: the only verdicts it
can produce are Runtime Error, Passed and Time Limit Exceeded. -/
def judge_run_with_limits : ProcResult → RunResult
  | .exited code out err =>
      if code ≠ 0 then
        { verdict := "Runtime Error", details := some err, output := none }
      else
        { verdict := "Passed", details := none, output := some out }
  | .timeout =>
      { verdict := "Time Limit Exceeded", details := none, output := none }

/-- Python whitespace, as removed by `str.strip()`. -/
def isWS (c : Char) : Bool :=
  c = ' ' || c = '\t' || c = '\n' || c = '\r' || c = '\x0b' || c = '\x0c'

/-- `str.strip()`: drop leading and trailing whitespace. -/
def trimChars (l : List Char) : List Char :=
  ((l.dropWhile isWS).reverse.dropWhile isWS).reverse

/-- `str.replace("\r\n", "\n")`: left-to-right non-overlapping
replacement of CRLF by LF. -/
def replaceCRLF : List Char → List Char
  | [] => []
  | '\r' :: '\n' :: rest => '\n' :: replaceCRLF rest
  | c :: rest => c :: replaceCRLF rest

/-- `normalize` (judge.py 208): strip, then canonicalize CRLF, modelled
over the character list of the string. -/
def normalize (text : String) : String :=
  String.mk (replaceCRLF (trimChars text.data))

/-- The result dict `run_test_cases` returns. -/
structure TestResult where
  verdict : String
  details : Option String
deriving DecidableEq, Repr

/-- The `for i, t in enumerate(tests)` loop of `run_test_cases`
(judge.py 227-233), together with the number of child executions it
performs. The per-test process outcome is the host parameter `exec`,
indexed by test position. -/
def run_tests_loop (exec : Nat → ProcResult) :
    List TestCase → Nat → TestResult × Nat
  | [], _ => ({ verdict := "Accepted", details := none }, 0)
  | t :: rest, i =>
      let res := judge_run_with_limits (exec i)
      if res.verdict ≠ "Passed" then
        ({ verdict := res.verdict,
           details := some ("Failed on test " ++ toString (i + 1) ++ ": "
             ++ res.details.getD "") }, 1)
      else if normalize (res.output.getD "") ≠ normalize t.output then
        ({ verdict := "Wrong Answer",
           details := some ("Failed on test " ++ toString (i + 1)) }, 1)
      else
        let r := run_tests_loop exec rest (i + 1)
        (r.1, r.2 + 1)

/-- `run_test_cases` (judge.py 211-235): language dispatch, compilation
for cpp (`compileErr` abstracts `_compile_cpp`, judge.py 185-193), then
the per-case loop. The `Nat` component counts child executions. -/
def run_test_cases (sub : SubmissionInfo) (compileErr : Option String)
    (exec : Nat → ProcResult) (tests : List TestCase) : TestResult × Nat :=
  if sub.language = "python" then run_tests_loop exec tests 0
  else if sub.language = "cpp" then
    match compileErr with
    | some err => ({ verdict := "Compilation Error", details := some err }, 0)
    | none => run_tests_loop exec tests 0
  else ({ verdict := "System Error", details := some "Unsupported language" }, 0)

/-- The dict `judge_and_verify` returns to the HTTP layer. -/
structure JudgeOutcome where
  verdict : String
  details : String
deriving DecidableEq, Repr

/-- `judge_and_verify` (judge.py 285-302): look up the problem, screen
for plagiarism against the loaded scoreboard, run the concatenated
sample-plus-hidden cases, and record the verdict. Errors raised while
persisting the scoreboard propagate out. -/
def judge_and_verify (problems : List (String × Problem)) (fs : FileState)
    (writeOk : Bool) (sim : String → String → ℚ) (sub : SubmissionInfo)
    (compileErr : Option String) (exec : Nat → ProcResult) (now : Nat) :
    Except String (JudgeOutcome × FileState) :=
  match getKey problems sub.problem_id with
  | none => .ok ({ verdict := "System Error", details := "Problem not found" }, fs)
  | some prob =>
      let board := load_json fs
      let pres := check_plagiarism sim sub board
      if pres.1 then
        match update_scoreboard fs writeOk sub "Plagiarism Detected" pres.2
            true now with
        | .error e => .error e
        | .ok fs' =>
            .ok ({ verdict := "Plagiarism Detected", details := pres.2 }, fs')
      else
        let tests := prob.sample_test_cases ++ prob.hidden_test_cases
        let result := (run_test_cases sub compileErr exec tests).1
        match update_scoreboard fs writeOk sub result.verdict
            (result.details.getD "") false now with
        | .error e => .error e
        | .ok fs' =>
            .ok ({ verdict := result.verdict,
                   details := result.details.getD "" }, fs')

/-! # Claims C3 and C4 -/

/-- A problem with one sample case and no hidden cases. -/
def probP1 : Problem :=
  { time_limit := 2, memory_limit := 256,
    sample_test_cases := [{ input := "3 5", output := "8" }],
    hidden_test_cases := [] }

/-- A problem whose concatenated test-case sequence is empty. -/
def probEmpty : Problem :=
  { time_limit := 2, memory_limit := 256,
    sample_test_cases := [], hidden_test_cases := [] }

/-- A similarity function reporting no similarity at all. -/
def simZero : String → String → ℚ := fun _ _ => 0

/-- A child process that exits cleanly printing 8. -/
def execPass : Nat → ProcResult := fun _ => .exited 0 "8" ""

def subEve : SubmissionInfo :=
  { participant_name := "eve", problem_id := "P0", language := "python",
    code := "print(1)" }

/-- C3 counterexample: when the persist step fails, `judge_and_verify`
raises instead of returning the submission's verdict, even though the
submission judged to Accepted; the error is not absorbed by the
scoreboard manager. -/
theorem c3_counterexample :
    judge_and_verify [("P1", probP1)] .missing false simZero subAlice none
        execPass 0 = .error "IOError" ∧
      (run_test_cases subAlice none execPass
        (probP1.sample_test_cases ++ probP1.hidden_test_cases)).1.verdict
        = "Accepted" :=
  ⟨rfl, rfl⟩

/-- C3 (amended): a missing or JSON-corrupt scoreboard file is absorbed
during load and treated as an empty scoreboard, but an error raised
while persisting propagates out of `update_scoreboard` and out of
`judge_and_verify`, so the judging request fails instead of returning
the verdict. -/
theorem c3_persist_error_propagates :
    (∀ (sub : SubmissionInfo) (verdict details : String) (plag : Bool)
        (now : Nat),
      update_scoreboard .missing true sub verdict details plag now
          = .ok (.valid (apply_scoreboard_update [] sub verdict details plag now))
        ∧ update_scoreboard .corrupt true sub verdict details plag now
          = .ok (.valid (apply_scoreboard_update [] sub verdict details plag now))) ∧
    (∀ (fs : FileState) (sub : SubmissionInfo) (verdict details : String)
        (plag : Bool) (now : Nat),
      update_scoreboard fs false sub verdict details plag now
        = .error "IOError") ∧
    (∀ (problems : List (String × Problem)) (prob : Problem) (fs : FileState)
        (sim : String → String → ℚ) (sub : SubmissionInfo)
        (compileErr : Option String) (exec : Nat → ProcResult) (now : Nat),
      getKey problems sub.problem_id = some prob →
        judge_and_verify problems fs false sim sub compileErr exec now
          = .error "IOError") := by
  refine ⟨fun sub v d p n => ⟨rfl, rfl⟩, fun fs sub v d p n => rfl, ?_⟩
  intro problems prob fs sim sub compileErr exec now h
  unfold judge_and_verify
  rw [h]
  by_cases hp : (check_plagiarism sim sub (load_json fs)).1 <;>
    simp [hp, update_scoreboard, save_json_atomic]

/-- C3 witness: the propagation conjunct applied at a concrete problem
set, submission and failing write. -/
theorem c3_witness :
    getKey [("P1", probP1)] subAlice.problem_id = some probP1 ∧
      judge_and_verify [("P1", probP1)] .corrupt false simZero subAlice none
        execPass 0 = .error "IOError" :=
  ⟨rfl, c3_persist_error_propagates.2.2 [("P1", probP1)] probP1 .corrupt
    simZero subAlice none execPass 0 rfl⟩

/-- C4: a problem whose concatenated sample-plus-hidden sequence is
empty is judged Accepted by `judge_and_verify`, not System Error: the
live code (judge.py 297-298) has no empty-sequence guard, so the
per-case loop falls through to the Accepted verdict. -/
theorem c4_empty_tests_accepted :
    probEmpty.sample_test_cases ++ probEmpty.hidden_test_cases = [] ∧
      judge_and_verify [("P0", probEmpty)] .missing true simZero subEve none
          execPass 0
        = .ok ({ verdict := "Accepted", details := "" },
            .valid (apply_scoreboard_update [] subEve "Accepted" "" false 0)) :=
  ⟨rfl, rfl⟩

/-! # Claim C6: verdict short-circuit -/

/-- Total indexing into the test list. -/
def caseAt (tests : List TestCase) (k : Nat) : TestCase :=
  tests.getD k { input := "", output := "" }

/-- Test case `t`, executed as the `j`-th child run, succeeds: the
process result is Passed and the normalized output matches the
normalized expected output. -/
def casePassesAt (exec : Nat → ProcResult) (t : TestCase) (j : Nat) : Prop :=
  (judge_run_with_limits (exec j)).verdict = "Passed" ∧
    normalize ((judge_run_with_limits (exec j)).output.getD "")
      = normalize t.output

instance (exec : Nat → ProcResult) (t : TestCase) (j : Nat) :
    Decidable (casePassesAt exec t j) := by
  unfold casePassesAt; infer_instance

/-- The result `run_tests_loop` builds for a failing case at position
`j` (0-based): the mapped verdict annotated with the 1-based index. -/
def failResultAt (exec : Nat → ProcResult) (j : Nat) :
    TestResult :=
  let res := judge_run_with_limits (exec j)
  if res.verdict ≠ "Passed" then
    { verdict := res.verdict,
      details := some ("Failed on test " ++ toString (j + 1) ++ ": "
        ++ res.details.getD "") }
  else
    { verdict := "Wrong Answer",
      details := some ("Failed on test " ++ toString (j + 1)) }

theorem run_tests_loop_all_pass (exec : Nat → ProcResult) :
    ∀ (tests : List TestCase) (i : Nat),
      (∀ k, k < tests.length → casePassesAt exec (caseAt tests k) (i + k)) →
      run_tests_loop exec tests i
        = ({ verdict := "Accepted", details := none }, tests.length)
  | [], _, _ => rfl
  | t :: rest, i, h => by
      have h0 := h 0 (by simp)
      obtain ⟨hv, ho⟩ := h0
      simp only [caseAt, List.getD_cons_zero, Nat.add_zero] at hv ho
      rw [run_tests_loop]
      simp only [hv, ho, ne_eq, not_true_eq_false, if_false, ite_false,
        not_false_eq_true, if_true]
      rw [run_tests_loop_all_pass exec rest (i + 1) (fun k hk => by
        have := h (k + 1) (by simpa using Nat.succ_lt_succ hk)
        simpa [caseAt, Nat.add_assoc, Nat.add_comm 1 k] using this)]
      simp [List.length_cons]

theorem run_tests_loop_first_fail (exec : Nat → ProcResult) :
    ∀ (tests : List TestCase) (i j : Nat),
      j < tests.length →
      (∀ k, k < j → casePassesAt exec (caseAt tests k) (i + k)) →
      ¬ casePassesAt exec (caseAt tests j) (i + j) →
      run_tests_loop exec tests i
        = (failResultAt exec (i + j), j + 1)
  | [], _, j, hj, _, _ => absurd hj (by simp)
  | t :: rest, i, 0, _, _, hfail => by
      simp only [caseAt, List.getD_cons_zero, Nat.add_zero] at hfail ⊢
      rw [run_tests_loop, failResultAt]
      by_cases hv : (judge_run_with_limits (exec i)).verdict = "Passed"
      · have ho : normalize ((judge_run_with_limits (exec i)).output.getD "")
            ≠ normalize t.output := by
          intro ho; exact hfail ⟨hv, ho⟩
        simp [hv, ho]
      · simp [hv]
  | _t :: rest, i, j + 1, hj, hpass, hfail => by
      have h0 := hpass 0 (Nat.succ_pos j)
      obtain ⟨hv, ho⟩ := h0
      simp only [caseAt, List.getD_cons_zero, Nat.add_zero] at hv ho
      rw [run_tests_loop]
      simp only [hv, ho, ne_eq, not_true_eq_false, if_false, ite_false,
        not_false_eq_true, if_true]
      have hrec := run_tests_loop_first_fail exec rest (i + 1) j
        (by simpa using Nat.lt_of_succ_lt_succ hj)
        (fun k hk => by
          have := hpass (k + 1) (Nat.succ_lt_succ hk)
          simpa [caseAt, Nat.add_assoc, Nat.add_comm 1 k] using this)
        (by
          have : i + 1 + j = i + (j + 1) := by omega
          rw [this]
          simpa [caseAt] using hfail)
      rw [hrec]
      have : i + 1 + j = i + (j + 1) := by omega
      simp [caseAt, this]

/-- C6: the per-case loop runs the ordered cases strictly in order; on
the first case that does not succeed it stops, having executed exactly
the cases up to and including the failing one, and returns the mapped
verdict annotated with the failing case's 1-based index
(`failResultAt` carries the text "Failed on test (j+1)"); if every case
succeeds the verdict is Accepted after executing all cases. -/
theorem c6_short_circuit (exec : Nat → ProcResult) (tests : List TestCase) :
    (∀ j, j < tests.length →
      (∀ k, k < j → casePassesAt exec (caseAt tests k) k) →
      ¬ casePassesAt exec (caseAt tests j) j →
      run_tests_loop exec tests 0
        = (failResultAt exec j, j + 1)) ∧
    ((∀ k, k < tests.length → casePassesAt exec (caseAt tests k) k) →
      run_tests_loop exec tests 0
        = ({ verdict := "Accepted", details := none }, tests.length)) := by
  constructor
  · intro j hj hpass hfail
    have := run_tests_loop_first_fail exec tests 0 j hj
      (fun k hk => by simpa using hpass k hk) (by simpa using hfail)
    simpa using this
  · intro h
    exact run_tests_loop_all_pass exec tests 0 (fun k hk => by
      simpa using h k hk)

/-- Three ordered cases where case 2 is the first failure. -/
def exec3 : Nat → ProcResult :=
  fun i => if i = 0 then .exited 0 "a" "" else .exited 0 "x" ""

def tests3 : List TestCase :=
  [{ input := "1", output := "a" }, { input := "2", output := "b" },
   { input := "3", output := "c" }]

/-- C6 witness: with three ordered cases whose second is the first
failure, the loop reports the failure at 1-based index 2 and performs
exactly 2 executions, so case 3 is never executed. -/
theorem c6_witness :
    (¬ casePassesAt exec3 (caseAt tests3 1) 1) ∧
      run_tests_loop exec3 tests3 0
        = (failResultAt exec3 1, 2) :=
  ⟨by decide, (c6_short_circuit exec3 tests3).1 1 (by decide) (by decide)
    (by decide)⟩

/-! # Claim C7: plagiarism threshold -/

/-- The single code snapshot the detector reads for a user: the `code`
field of that user's current record for the submission's problem. -/
def snapshotCode (sub : SubmissionInfo) (data : Entry) : Option String :=
  (getKey data.problems_solved sub.problem_id).bind ProblemRecord.code

/-- Some scanned scoreboard entry is a candidate at or above the
threshold: a different participant whose current record for this
problem carries a non-empty code snapshot whose similarity with the new
source reaches `SIMILARITY_THRESHOLD`. -/
def candProp (sim : String → String → ℚ) (sub : SubmissionInfo)
    (board : Board) : Prop :=
  ∃ u d c, (u, d) ∈ board ∧ u ≠ sub.participant_name ∧
    snapshotCode sub d = some c ∧ c ≠ "" ∧
    SIMILARITY_THRESHOLD ≤ sim sub.code c

theorem candProp_cons (sim : String → String → ℚ) (sub : SubmissionInfo)
    (user : String) (data : Entry) (rest : Board) :
    candProp sim sub ((user, data) :: rest) ↔
      (user ≠ sub.participant_name ∧ ∃ c, snapshotCode sub data = some c ∧
        c ≠ "" ∧ SIMILARITY_THRESHOLD ≤ sim sub.code c) ∨
      candProp sim sub rest := by
  constructor
  · rintro ⟨u, d, c, hm, h1, h2, h3, h4⟩
    rcases List.mem_cons.mp hm with he | hm'
    · rw [Prod.mk.injEq] at he
      obtain ⟨h5, h6⟩ := he
      subst h5; subst h6
      exact Or.inl ⟨h1, c, h2, h3, h4⟩
    · exact Or.inr ⟨u, d, c, hm', h1, h2, h3, h4⟩
  · rintro (⟨h1, c, h2, h3, h4⟩ | ⟨u, d, c, hm, hs⟩)
    · exact ⟨user, data, c, List.mem_cons_self .., h1, h2, h3, h4⟩
    · exact ⟨u, d, c, List.mem_cons_of_mem _ hm, hs⟩

/-- C7: the detector flags the submission exactly when some scanned
candidate (another participant, non-empty current snapshot for the same
problem) has similarity at or above the 0.90 threshold (so a ratio of
exactly 9/10 is flagged and one of 89/100 is not), and on detection the
returned message names the matched participant and their ratio. -/
theorem c7_threshold_iff (sim : String → String → ℚ) (sub : SubmissionInfo)
    (board : Board) :
    ((check_plagiarism sim sub board).1 = true ↔ candProp sim sub board) ∧
    ((check_plagiarism sim sub board).1 = true →
      ∃ user c, SIMILARITY_THRESHOLD ≤ sim sub.code c ∧
        (check_plagiarism sim sub board).2
          = plagMessage sub.participant_name user (sim sub.code c)) := by
  induction board with
  | nil =>
      refine ⟨?_, ?_⟩
      · simp [check_plagiarism, candProp]
      · intro h; simp [check_plagiarism] at h
  | cons p rest ih =>
      obtain ⟨user, data⟩ := p
      obtain ⟨ih1, ih2⟩ := ih
      by_cases hu : user = sub.participant_name
      · have hval : check_plagiarism sim sub ((user, data) :: rest)
            = check_plagiarism sim sub rest := by
          simp [check_plagiarism, hu]
        have hhead : ¬ (user ≠ sub.participant_name ∧ ∃ c,
            snapshotCode sub data = some c ∧ c ≠ "" ∧
            SIMILARITY_THRESHOLD ≤ sim sub.code c) := fun h => h.1 hu
        refine ⟨?_, ?_⟩
        · rw [hval, candProp_cons, ih1]
          exact ⟨Or.inr, fun h => h.elim (fun h => absurd h hhead) id⟩
        · rw [hval]; exact ih2
      · cases hg : getKey data.problems_solved sub.problem_id with
        | none =>
            have hval : check_plagiarism sim sub ((user, data) :: rest)
                = check_plagiarism sim sub rest := by
              simp [check_plagiarism, hu, hg]
            have hhead : ¬ (user ≠ sub.participant_name ∧ ∃ c,
                snapshotCode sub data = some c ∧ c ≠ "" ∧
                SIMILARITY_THRESHOLD ≤ sim sub.code c) := by
              rintro ⟨-, c, h2, -, -⟩
              simp [snapshotCode, hg] at h2
            refine ⟨?_, ?_⟩
            · rw [hval, candProp_cons, ih1]
              exact ⟨Or.inr, fun h => h.elim (fun h => absurd h hhead) id⟩
            · rw [hval]; exact ih2
        | some r =>
            cases hc : r.code with
            | none =>
                have hval : check_plagiarism sim sub ((user, data) :: rest)
                    = check_plagiarism sim sub rest := by
                  simp [check_plagiarism, hu, hg, hc]
                have hhead : ¬ (user ≠ sub.participant_name ∧ ∃ c,
                    snapshotCode sub data = some c ∧ c ≠ "" ∧
                    SIMILARITY_THRESHOLD ≤ sim sub.code c) := by
                  rintro ⟨-, c, h2, -, -⟩
                  simp [snapshotCode, hg, hc] at h2
                refine ⟨?_, ?_⟩
                · rw [hval, candProp_cons, ih1]
                  exact ⟨Or.inr, fun h => h.elim (fun h => absurd h hhead) id⟩
                · rw [hval]; exact ih2
            | some c0 =>
                by_cases hce : c0 = ""
                · have hval : check_plagiarism sim sub ((user, data) :: rest)
                      = check_plagiarism sim sub rest := by
                    simp [check_plagiarism, hu, hg, hc, hce]
                  have hhead : ¬ (user ≠ sub.participant_name ∧ ∃ c,
                      snapshotCode sub data = some c ∧ c ≠ "" ∧
                      SIMILARITY_THRESHOLD ≤ sim sub.code c) := by
                    rintro ⟨-, c, h2, h3, -⟩
                    simp [snapshotCode, hg, hc] at h2
                    subst h2; exact h3 hce
                  refine ⟨?_, ?_⟩
                  · rw [hval, candProp_cons, ih1]
                    exact ⟨Or.inr, fun h => h.elim (fun h => absurd h hhead) id⟩
                  · rw [hval]; exact ih2
                · by_cases hthr : SIMILARITY_THRESHOLD ≤ sim sub.code c0
                  · have hval : check_plagiarism sim sub ((user, data) :: rest)
                        = (true, plagMessage sub.participant_name user
                            (sim sub.code c0)) := by
                      simp [check_plagiarism, hu, hg, hc, hce, hthr]
                    refine ⟨?_, ?_⟩
                    · rw [hval]
                      constructor
                      · intro _
                        exact ⟨user, data, c0, List.mem_cons_self .., hu,
                          by simp [snapshotCode, hg, hc], hce, hthr⟩
                      · intro _; rfl
                    · intro _
                      exact ⟨user, c0, hthr, by rw [hval]⟩
                  · have hval : check_plagiarism sim sub ((user, data) :: rest)
                        = check_plagiarism sim sub rest := by
                      simp [check_plagiarism, hu, hg, hc, hce, hthr]
                    have hhead : ¬ (user ≠ sub.participant_name ∧ ∃ c,
                        snapshotCode sub data = some c ∧ c ≠ "" ∧
                        SIMILARITY_THRESHOLD ≤ sim sub.code c) := by
                      rintro ⟨-, c, h2, -, h4⟩
                      simp [snapshotCode, hg, hc] at h2
                      subst h2; exact hthr h4
                    refine ⟨?_, ?_⟩
                    · rw [hval, candProp_cons, ih1]
                      exact ⟨Or.inr, fun h => h.elim (fun h => absurd h hhead) id⟩
                    · rw [hval]; exact ih2

/-- A similarity function pinned exactly at the 0.90 threshold. -/
def simHigh : String → String → ℚ := fun _ _ => SIMILARITY_THRESHOLD

/-- A similarity function pinned at 0.89, just below the threshold. -/
def sim89 : String → String → ℚ := fun _ _ => ⟨89, 100, by norm_num, by norm_num⟩

/-- Bob's entry with a stored code snapshot for P1. -/
def entryBob : Entry :=
  { score := 0,
    problems_solved := [("P1",
      { verdict := "Wrong Answer", timestamp := 0,
        code := some "a,b=map(int,input().split());print(a+b)",
        details := none })] }

def boardBob : Board := [("bob", entryBob)]

/-- C7 witness: at ratio exactly 9/10 the detector flags and the message
names the matched participant; at ratio 89/100 the same corpus is
reported clean. -/
theorem c7_witness :
    (check_plagiarism simHigh subAlice boardBob).1 = true ∧
      (∃ user c, SIMILARITY_THRESHOLD ≤ simHigh subAlice.code c ∧
        (check_plagiarism simHigh subAlice boardBob).2
          = plagMessage "alice" user (simHigh subAlice.code c)) ∧
      (check_plagiarism sim89 subAlice boardBob).1 = false :=
  ⟨by decide, (c7_threshold_iff simHigh subAlice boardBob).2 (by decide),
    by decide⟩

/-! # Agent-side execution sandbox (executor.py) and claim C5 -/

/-- `normalize_output` (executor.py 490-492): the agent's copy of the
shared normalization rule. -/
def normalize_output (output : String) : String :=
  String.mk (replaceCRLF (trimChars output.data))

/-- Host-observable behaviour of one child process: the resident-memory
values psutil reports at the successive poll ticks of the monitoring
loop during the process's lifetime, and how the process ends. -/
structure ProcBehavior where
  memSamples : List Nat
  result : ProcResult
deriving DecidableEq, Repr

/-- The result dict `_run_and_verify` fills (executor.py 240-311):
status, user-facing output text, and the peak resident memory in bytes
(the source renders the peak as an MB string; the number is what is
modelled). -/
structure ExecResult where
  status : String
  output : String
  memory_usage : Nat
deriving DecidableEq, Repr

/-- The psutil monitoring loop of `_run_and_verify`
(executor.py 263-281): at every poll tick the running peak is updated
first, then the child is killed as soon as the sampled rss exceeds the
limit. Returns the peak at the kill tick (when killed) and the running
peak. -/
def memory_poll (memLimitBytes : Nat) : List Nat → Nat → Option Nat × Nat
  | [], maxMem => (none, maxMem)
  | s :: rest, maxMem =>
      let maxMem2 := if s > maxMem then s else maxMem
      if s > memLimitBytes then (some maxMem2, maxMem2)
      else memory_poll memLimitBytes rest maxMem2

/-- The communicate-and-classify tail of `_run_and_verify`
(executor.py 284-306): timeout, non-zero exit, then normalized output
comparison. -/
def exec_wait (b : ProcBehavior) (maxMem : Nat) (expected : String)
    (timeLimit : Nat) : ExecResult :=
  match b.result with
  | .timeout =>
      { status := "time_limit_exceeded",
        output := "Execution time exceeded " ++ toString timeLimit
          ++ " seconds",
        memory_usage := maxMem }
  | .exited code out err =>
      if code ≠ 0 then
        { status := "runtime_error",
          output := if err ≠ "" then err
            else "Program exited with non-zero code: " ++ toString code,
          memory_usage := maxMem }
      else if normalize_output out = normalize_output expected then
        { status := "success", output := out, memory_usage := maxMem }
      else
        { status := "wrong_answer", output := out, memory_usage := maxMem }

/-- `_run_and_verify` (executor.py 240-311): with psutil available the
monitoring loop may kill the child and report the exceeded limit with
the observed peak; otherwise the process is awaited and classified. -/
def run_and_verify (psutilAvailable : Bool) (b : ProcBehavior)
    (expected : String) (timeLimit memLimitMB : Nat) : ExecResult :=
  if psutilAvailable then
    match memory_poll (memLimitMB * 1024 * 1024) b.memSamples 0 with
    | (some peak, _) =>
        { status := "memory_limit_exceeded",
          output := "Memory usage exceeded " ++ toString memLimitMB ++ " MB",
          memory_usage := peak }
    | (none, maxMem) => exec_wait b maxMem expected timeLimit
  else exec_wait b 0 expected timeLimit

/-- The central judge's runner applied to the same process behaviour:
the live `_run_with_limits` (judge.py 196-205) takes no memory limit
and reads no memory information, so the samples are ignored. -/
def judge_run_on (b : ProcBehavior) : RunResult :=
  judge_run_with_limits b.result

/-- A run whose resident memory reaches 600 MB before a clean exit. -/
def bigMemRun : ProcBehavior :=
  { memSamples := [600 * 1024 * 1024], result := .exited 0 "8" "" }

/-- C5 counterexample: a child whose resident memory reaches 600 MB,
far beyond a 256 MB limit, before exiting is reported as Passed by the
central judge's `_run_with_limits`, which performs no memory check at
all, so the claim fails for executions driven by the central judge. -/
theorem c5_counterexample :
    600 * 1024 * 1024 ∈ bigMemRun.memSamples ∧
      600 * 1024 * 1024 > 256 * 1024 * 1024 ∧
      (judge_run_on bigMemRun).verdict = "Passed" :=
  ⟨by decide, by decide, by decide⟩

theorem memory_poll_kills (ml : Nat) :
    ∀ (samples : List Nat) (m : Nat), (∃ s ∈ samples, s > ml) →
      (memory_poll ml samples m).1.isSome = true
  | [], _, h => absurd h (by simp)
  | s :: rest, m, h => by
      rw [memory_poll]
      by_cases hs : s > ml
      · simp [hs]
      · simp only [hs, if_false]
        apply memory_poll_kills ml rest
        rcases h with ⟨x, hx, hgt⟩
        rcases List.mem_cons.mp hx with rfl | hx'
        · exact absurd hgt hs
        · exact ⟨x, hx', hgt⟩

/-- C5 (amended): in the agent executor with psutil available, a run
whose resident memory exceeds the configured limit at any poll tick is
killed and reported as memory_limit_exceeded; the central judge's
`_run_with_limits`, by contrast, performs no memory check and can never
report Memory Limit Exceeded. -/
theorem c5_memory_kill (b : ProcBehavior) (expected : String)
    (timeLimit memLimitMB : Nat)
    (h : ∃ s ∈ b.memSamples, s > memLimitMB * 1024 * 1024) :
    (run_and_verify true b expected timeLimit memLimitMB).status
        = "memory_limit_exceeded" ∧
      ∀ p : ProcResult,
        (judge_run_with_limits p).verdict ≠ "Memory Limit Exceeded" := by
  constructor
  · have hk := memory_poll_kills (memLimitMB * 1024 * 1024) b.memSamples 0 h
    unfold run_and_verify
    cases hp : memory_poll (memLimitMB * 1024 * 1024) b.memSamples 0 with
    | mk fst snd =>
        cases fst with
        | none => rw [hp] at hk; simp at hk
        | some peak => simp [hp]
  · intro p
    cases p with
    | exited code out err =>
        by_cases hc : code ≠ 0 <;> simp [judge_run_with_limits, hc]
    | timeout => simp [judge_run_with_limits]

/-- C5 witness: the 600 MB run under a 256 MB limit is killed and
reported as memory_limit_exceeded by the agent executor. -/
theorem c5_witness :
    (∃ s ∈ bigMemRun.memSamples, s > 256 * 1024 * 1024) ∧
      (run_and_verify true bigMemRun "8" 2 256).status
        = "memory_limit_exceeded" :=
  ⟨by decide, (c5_memory_kill bigMemRun "8" 2 256 (by decide)).1⟩

/-! # Asynchronous job tracker (executor.py 46-153, agent.py 298-422)
and claim C8 -/

/-- Python `str.lower()`, modelled over the character list. -/
def toLowerStr (t : String) : String := String.mk (t.data.map Char.toLower)

/-- One `update_status` call: the status, output and progress values
written to the job record (executor.py 66-75). -/
structure JobUpdate where
  status : String
  output : String
  progress : Nat
deriving DecidableEq, Repr

/-- The modelled fields of one job's record in the shared
`JOB_STATUSES` map. -/
structure JobRecord where
  status : String
  output : String
  progress : Nat
deriving DecidableEq, Repr

/-- `update_status` (executor.py 66-75): overwrite the record's status,
output and progress with the update's values. -/
def update_status (_r : JobRecord) (u : JobUpdate) : JobRecord :=
  { status := u.status, output := u.output, progress := u.progress }

/-- `cancel_job` (agent.py 401-422): a job already at progress 100 is
left alone; otherwise the record is marked cancelled with progress
100. -/
def cancel_job (r : JobRecord) : JobRecord :=
  if r.progress ≥ 100 then r
  else { status := "cancelled", output := "Execution cancelled by user",
         progress := 100 }

/-- The record created by the submit route (agent.py 336-343). -/
def initJob : JobRecord := { status := "queued", output := "", progress := 0 }

/-- Apply a sequence of worker updates to a record. -/
def applyUpdates (r : JobRecord) (us : List JobUpdate) : JobRecord :=
  us.foldl update_status r

/-- The inputs that determine which `update_status` calls one worker run
of `run_code_and_update_status` performs: whether the problem loads,
the (raw) language tag, the compiler outcome for cpp, availability of
the lockdown module and of psutil, whether Popen succeeds, the number of
periodic memory status updates emitted, and the child behaviour. -/
structure WorkerScenario where
  problemFound : Bool
  language : String
  compileError : Option String
  lockdownAvailable : Bool
  psutilAvailable : Bool
  spawnOk : Bool
  memTicks : Nat
  behavior : ProcBehavior
  expected : String
  timeLimit : Nat
  memLimitMB : Nat
deriving DecidableEq, Repr

/-- The monitoring loop killed the child over its memory limit. -/
def mleKilled (s : WorkerScenario) : Bool :=
  s.psutilAvailable &&
    (memory_poll (s.memLimitMB * 1024 * 1024) s.behavior.memSamples 0).1.isSome

/-- The child ended with an exit rather than a timeout. -/
def isExited : ProcResult → Bool
  | .exited .. => true
  | .timeout => false

/-- The exec-result dict the worker's final 100-percent update carries
(run_code_and_update_status, executor.py 135-140; spawn failure is the
FileNotFoundError path of executor.py 392-394). -/
def worker_result (s : WorkerScenario) : ExecResult :=
  if s.spawnOk then
    run_and_verify s.psutilAvailable s.behavior s.expected s.timeLimit
      s.memLimitMB
  else
    { status := "runtime_error", output := "Command not found",
      memory_usage := 0 }

def uRun70 : JobUpdate :=
  { status := "Running", output := "Executing program with input...",
    progress := 70 }

def uRun75 : JobUpdate :=
  { status := "Running",
    output := "Network isolation enabled. Executing program...",
    progress := 75 }

def uRun80 : JobUpdate :=
  { status := "Running", output := "Program executing...", progress := 80 }

def uRun85 : JobUpdate :=
  { status := "Running", output := "Waiting for program output...",
    progress := 85 }

def uVer90 : JobUpdate :=
  { status := "Verifying",
    output := "Checking output against expected result...", progress := 90 }

/-- The final update of the worker: the exec result at progress 100
(executor.py 135-140). -/
def finalUpdate (s : WorkerScenario) : JobUpdate :=
  { status := (worker_result s).status, output := (worker_result s).output,
    progress := 100 }

/-- The single terminal update after a failed cpp compilation
(execute_cpp_async returning early, then executor.py 135-140). -/
def compErrUpdate (err : String) : JobUpdate :=
  { status := "compilation_error", output := err, progress := 100 }

@[simp] theorem finalUpdate_progress (s : WorkerScenario) :
    (finalUpdate s).progress = 100 := rfl

@[simp] theorem compErrUpdate_progress (err : String) :
    (compErrUpdate err).progress = 100 := rfl

/-- The `update_status` calls `_run_and_verify_async` performs
(executor.py 314-402), in order: 70 on entry, 75 once lockdown is
enabled, the periodic 80 updates while the child runs, 85 before
communicate (skipped when the spawn failed or the memory kill already
returned), and 90 after communicate returns (skipped on timeout). -/
def runner_updates (s : WorkerScenario) : List JobUpdate :=
  [uRun70]
    ++ ((if s.lockdownAvailable then [uRun75] else [])
    ++ ((if s.spawnOk && s.psutilAvailable then
          List.replicate s.memTicks uRun80 else [])
    ++ ((if s.spawnOk && !(mleKilled s) then [uRun85] else [])
    ++ (if s.spawnOk && !(mleKilled s) && isExited s.behavior.result then
          [uVer90] else []))))

def uInit5 : JobUpdate :=
  { status := "Initializing",
    output := "Setting up execution environment...", progress := 5 }

def uLoad10 : JobUpdate :=
  { status := "Loading Problem",
    output := "Fetching problem configuration...", progress := 10 }

def uReady20 : JobUpdate :=
  { status := "Ready", output := "Configuration loaded.", progress := 20 }

def uCpp30 : JobUpdate :=
  { status := "Compiling", output := "Writing source code to file...",
    progress := 30 }

def uCpp40 : JobUpdate :=
  { status := "Compiling", output := "Compiling C++ code with g++...",
    progress := 40 }

def uCompiled60 : JobUpdate :=
  { status := "Compiled",
    output := "Compilation successful! Preparing to run...", progress := 60 }

def uPy30 : JobUpdate :=
  { status := "Preparing", output := "Writing Python script to file...",
    progress := 30 }

def uPy60 : JobUpdate :=
  { status := "Ready to Execute",
    output := "Python script ready. Starting execution...", progress := 60 }

def uNotFound100 : JobUpdate :=
  { status := "error", output := "Problem not found or invalid.",
    progress := 100 }

def uUnsupported100 : JobUpdate :=
  { status := "error", output := "Unsupported language", progress := 100 }

/-- The ordered `update_status` calls of one worker run of
`run_code_and_update_status` (executor.py 46-153): initialization and
problem loading, then the per-language preparation
(execute_cpp_async 405-444, execute_python_async 447-459), the runner
updates, and one final 100-percent update with the exec result; a
missing problem, an unsupported language and a compilation error end
the run at a single 100-percent update. -/
def worker_updates (s : WorkerScenario) : List JobUpdate :=
  [uInit5, uLoad10]
    ++ (if s.problemFound then
          [uReady20]
            ++ (if toLowerStr s.language = "cpp" then
                  [uCpp30, uCpp40]
                    ++ (match s.compileError with
                        | some err => [compErrUpdate err]
                        | none =>
                            [uCompiled60]
                              ++ (runner_updates s ++ [finalUpdate s]))
                else if toLowerStr s.language = "python" then
                  [uPy30, uPy60] ++ (runner_updates s ++ [finalUpdate s])
                else [uUnsupported100])
        else [uNotFound100])

/-- Progress comparison between two updates. -/
def leP (u v : JobUpdate) : Prop := u.progress ≤ v.progress

instance : DecidableRel leP := fun u v =>
  inferInstanceAs (Decidable (u.progress ≤ v.progress))

theorem pairwise_leP_append {l₁ l₂ : List JobUpdate} (m : Nat)
    (h₁ : l₁.Pairwise leP) (h₂ : l₂.Pairwise leP)
    (hb₁ : ∀ u ∈ l₁, u.progress ≤ m) (hb₂ : ∀ u ∈ l₂, m ≤ u.progress) :
    (l₁ ++ l₂).Pairwise leP :=
  List.pairwise_append.mpr
    ⟨h₁, h₂, fun a ha b hb => le_trans (hb₁ a ha) (hb₂ b hb)⟩

theorem pairwise_ite_nil {α : Type} {r : α → α → Prop} {c : Bool}
    {l : List α} (h : l.Pairwise r) : (if c then l else []).Pairwise r := by
  cases c
  · simp
  · simpa using h

theorem mem_ite_nil {α : Type} {c : Bool} {l : List α} {x : α}
    (h : x ∈ if c then l else []) : x ∈ l := by
  cases c
  · simp at h
  · simpa using h

theorem pairwise_leP_replicate (n : Nat) (u : JobUpdate) :
    (List.replicate n u).Pairwise leP := by
  induction n with
  | zero => simp
  | succ k ih =>
      rw [List.replicate_succ]
      exact List.Pairwise.cons
        (fun v hv => by rw [List.eq_of_mem_replicate hv]; exact le_refl _) ih

theorem runner_bounds (s : WorkerScenario) :
    ∀ u ∈ runner_updates s, 70 ≤ u.progress ∧ u.progress ≤ 90 := by
  intro u hu
  unfold runner_updates at hu
  rcases List.mem_append.mp hu with h | hu
  · simp at h; subst h; decide
  · rcases List.mem_append.mp hu with h | hu
    · have h2 := mem_ite_nil h; simp at h2; subst h2; decide
    · rcases List.mem_append.mp hu with h | hu
      · have h2 := List.eq_of_mem_replicate (mem_ite_nil h)
        subst h2; decide
      · rcases List.mem_append.mp hu with h | h
        · have h2 := mem_ite_nil h; simp at h2; subst h2; decide
        · have h2 := mem_ite_nil h; simp at h2; subst h2; decide

theorem runner_pairwise (s : WorkerScenario) :
    (runner_updates s).Pairwise leP := by
  unfold runner_updates
  refine pairwise_leP_append 70 (by decide) ?_
    (by intro u h; simp at h; subst h; decide) ?_
  · refine pairwise_leP_append 75 (pairwise_ite_nil (by decide)) ?_
      (by intro u h; have h2 := mem_ite_nil h; simp at h2; subst h2; decide) ?_
    · refine pairwise_leP_append 80
        (pairwise_ite_nil (pairwise_leP_replicate ..)) ?_
        (by intro u h
            have h2 := List.eq_of_mem_replicate (mem_ite_nil h)
            subst h2; decide) ?_
      · exact pairwise_leP_append 85 (pairwise_ite_nil (by decide))
          (pairwise_ite_nil (by decide))
          (by intro u h; have h2 := mem_ite_nil h; simp at h2; subst h2; decide)
          (by intro u h; have h2 := mem_ite_nil h; simp at h2; subst h2; decide)
      · intro u hu
        rcases List.mem_append.mp hu with h | h
        · have h2 := mem_ite_nil h; simp at h2; subst h2; decide
        · have h2 := mem_ite_nil h; simp at h2; subst h2; decide
    · intro u hu
      rcases List.mem_append.mp hu with h | hu
      · have h2 := List.eq_of_mem_replicate (mem_ite_nil h)
        subst h2; decide
      · rcases List.mem_append.mp hu with h | h
        · have h2 := mem_ite_nil h; simp at h2; subst h2; decide
        · have h2 := mem_ite_nil h; simp at h2; subst h2; decide
  · intro u hu
    exact (runner_bounds s u (by
      unfold runner_updates
      exact List.mem_append.mpr (Or.inr hu))).1

theorem worker_bounds (s : WorkerScenario) :
    ∀ u ∈ worker_updates s, u.progress ≤ 100 := by
  intro u hu
  unfold worker_updates at hu
  rcases List.mem_append.mp hu with h | hu
  · rcases List.mem_cons.mp h with h2 | h2
    · subst h2; decide
    · simp at h2; subst h2; decide
  · by_cases hpf : s.problemFound
    · rw [if_pos hpf] at hu
      rcases List.mem_append.mp hu with h | hu
      · simp at h; subst h; decide
      · by_cases hcpp : toLowerStr s.language = "cpp"
        · rw [if_pos hcpp] at hu
          rcases List.mem_append.mp hu with h | hu
          · rcases List.mem_cons.mp h with h2 | h2
            · subst h2; decide
            · simp at h2; subst h2; decide
          · cases hce : s.compileError with
            | some err => rw [hce] at hu; simp at hu; subst hu; simp
            | none =>
                rw [hce] at hu
                rcases List.mem_append.mp hu with h | hu
                · simp at h; subst h; decide
                · rcases List.mem_append.mp hu with h | h
                  · exact le_trans (runner_bounds s u h).2 (by decide)
                  · simp at h; subst h; simp
        · rw [if_neg hcpp] at hu
          by_cases hpy : toLowerStr s.language = "python"
          · rw [if_pos hpy] at hu
            rcases List.mem_append.mp hu with h | hu
            · rcases List.mem_cons.mp h with h2 | h2
              · subst h2; decide
              · simp at h2; subst h2; decide
            · rcases List.mem_append.mp hu with h | h
              · exact le_trans (runner_bounds s u h).2 (by decide)
              · simp at h; subst h; simp
          · rw [if_neg hpy] at hu
            simp at hu; subst hu; decide
    · rw [if_neg hpf] at hu
      simp at hu; subst hu; decide

theorem worker_pairwise (s : WorkerScenario) :
    (worker_updates s).Pairwise leP := by
  have hrun : (runner_updates s ++ [finalUpdate s]).Pairwise leP :=
    pairwise_leP_append 90 (runner_pairwise s) (by simp)
      (fun u hu => (runner_bounds s u hu).2)
      (by intro u h; simp at h; subst h; simp)
  have hrunlo : ∀ u ∈ runner_updates s ++ [finalUpdate s], 60 ≤ u.progress := by
    intro u hu
    rcases List.mem_append.mp hu with h | h
    · exact le_trans (by decide) (runner_bounds s u h).1
    · simp at h; subst h; simp
  have h60T : ([uCompiled60] ++ (runner_updates s ++ [finalUpdate s])).Pairwise leP :=
    pairwise_leP_append 60 (by decide) hrun (by decide) hrunlo
  have h60Tlo : ∀ u ∈ [uCompiled60] ++ (runner_updates s ++ [finalUpdate s]),
      60 ≤ u.progress := by
    intro u hu
    rcases List.mem_append.mp hu with h | h
    · simp at h; subst h; decide
    · exact hrunlo u h
  unfold worker_updates
  by_cases hpf : s.problemFound
  · rw [if_pos hpf]
    by_cases hcpp : toLowerStr s.language = "cpp"
    · rw [if_pos hcpp]
      cases hce : s.compileError with
      | some err =>
          refine pairwise_leP_append 10 (by decide) ?_ (by decide) ?_
          · refine pairwise_leP_append 20 (by decide) ?_ (by decide) ?_
            · exact pairwise_leP_append 40 (by decide) (by simp)
                (by decide) (by intro u hu; simp at hu; subst hu; simp)
            · intro u hu
              rcases List.mem_append.mp hu with h | h
              · rcases List.mem_cons.mp h with h2 | h2
                · subst h2; decide
                · simp at h2; subst h2; decide
              · simp at h; subst h; simp
          · intro u hu
            rcases List.mem_append.mp hu with h | hu
            · simp at h; subst h; decide
            · rcases List.mem_append.mp hu with h | h
              · rcases List.mem_cons.mp h with h2 | h2
                · subst h2; decide
                · simp at h2; subst h2; decide
              · simp at h; subst h; simp
      | none =>
          have hC : ([uCpp30, uCpp40]
              ++ ([uCompiled60] ++ (runner_updates s ++ [finalUpdate s]))).Pairwise leP :=
            pairwise_leP_append 40 (by decide) h60T (by decide)
              (fun u hu => le_trans (by decide) (h60Tlo u hu))
          have hClo : ∀ u ∈ [uCpp30, uCpp40]
              ++ ([uCompiled60] ++ (runner_updates s ++ [finalUpdate s])),
              30 ≤ u.progress := by
            intro u hu
            rcases List.mem_append.mp hu with h | h
            · rcases List.mem_cons.mp h with h2 | h2
              · subst h2; decide
              · simp at h2; subst h2; decide
            · exact le_trans (by decide) (h60Tlo u h)
          have hR : ([uReady20] ++ ([uCpp30, uCpp40]
              ++ ([uCompiled60] ++ (runner_updates s ++ [finalUpdate s])))).Pairwise leP :=
            pairwise_leP_append 20 (by decide) hC (by decide)
              (fun u hu => le_trans (by decide) (hClo u hu))
          refine pairwise_leP_append 10 (by decide) hR (by decide) ?_
          intro u hu
          rcases List.mem_append.mp hu with h | h
          · simp at h; subst h; decide
          · exact le_trans (by decide) (hClo u h)
    · rw [if_neg hcpp]
      by_cases hpy : toLowerStr s.language = "python"
      · rw [if_pos hpy]
        have hP : ([uPy30, uPy60]
            ++ (runner_updates s ++ [finalUpdate s])).Pairwise leP :=
          pairwise_leP_append 60 (by decide) hrun (by decide) hrunlo
        have hPlo : ∀ u ∈ [uPy30, uPy60]
            ++ (runner_updates s ++ [finalUpdate s]), 30 ≤ u.progress := by
          intro u hu
          rcases List.mem_append.mp hu with h | h
          · rcases List.mem_cons.mp h with h2 | h2
            · subst h2; decide
            · simp at h2; subst h2; decide
          · exact le_trans (by decide) (hrunlo u h)
        have hR2 : ([uReady20] ++ ([uPy30, uPy60]
            ++ (runner_updates s ++ [finalUpdate s]))).Pairwise leP :=
          pairwise_leP_append 20 (by decide) hP (by decide)
            (fun u hu => le_trans (by decide) (hPlo u hu))
        refine pairwise_leP_append 10 (by decide) hR2 (by decide) ?_
        intro u hu
        rcases List.mem_append.mp hu with h | h
        · simp at h; subst h; decide
        · exact le_trans (by decide) (hPlo u h)
      · rw [if_neg hpy]
        exact pairwise_leP_append 10 (by decide) (by decide)
          (by decide) (by decide)
  · rw [if_neg hpf]
    exact pairwise_leP_append 10 (by decide) (by decide) (by decide) (by decide)

/-- C8 (amended): starting from the queued record at progress 0, the
worker's own sequence of updates keeps progress inside 0..100 and
monotonically non-decreasing for every scenario; the claim's extension
to updates made after a cancellation fails, because `cancel_job` forces
progress to 100 while the worker keeps writing its remaining
lower-valued updates. -/
theorem c8_progress_monotone (s : WorkerScenario) :
    (0 :: (worker_updates s).map JobUpdate.progress).Pairwise (· ≤ ·) ∧
      (worker_updates s).all (fun u => u.progress ≤ 100) = true := by
  constructor
  · rw [List.pairwise_cons]
    refine ⟨fun x _ => Nat.zero_le x, ?_⟩
    rw [List.pairwise_map]
    exact worker_pairwise s
  · rw [List.all_eq_true]
    intro u hu
    simpa using worker_bounds s u hu

/-- A cancellable run: python submission, lockdown available, psutil
absent, child exits cleanly. Its worker updates have progress sequence
5, 10, 20, 30, 60, 70, 75, 85, 90, 100. -/
def scenC8 : WorkerScenario :=
  { problemFound := true, language := "python", compileError := none,
    lockdownAvailable := true, psutilAvailable := false, spawnOk := true,
    memTicks := 0,
    behavior := { memSamples := [], result := .exited 0 "8" "" },
    expected := "8", timeLimit := 2, memLimitMB := 256 }

/-- The job record after the worker's first seven updates (through the
75-percent update). -/
def c8_pre : JobRecord := applyUpdates initJob ((worker_updates scenC8).take 7)

/-- The record after the cancel route fires mid-run. -/
def c8_cancelled : JobRecord := cancel_job c8_pre

/-- The record after the still-running worker's next update lands on the
cancelled record. -/
def c8_after : JobRecord :=
  update_status c8_cancelled ((worker_updates scenC8).getD 7 uRun85)

/-- C8 counterexample: cancelling at progress 75 sets progress to 100,
and the worker's next update (the 85-percent update before communicate)
then lowers progress from 100 to 85, so progress is not monotonically
non-decreasing across updates made after a cancellation. -/
theorem c8_counterexample :
    c8_pre.progress = 75 ∧ c8_cancelled.progress = 100 ∧
      c8_after.progress = 85 ∧
      ¬ (c8_cancelled.progress ≤ c8_after.progress) :=
  ⟨by decide, by decide, by decide, by decide⟩

/-! # Network lockdown controller (lockdown.py) and claim C9 -/

/-- The process-wide `_lockdown_state` dict (lockdown.py 28). -/
structure LockState where
  active : Bool
  rules_applied : Bool
deriving DecidableEq, Repr

/-- Host observations driving the Windows paths: admin privilege, the
before and after results of `verify_rules_windows`, whether each netsh
add command succeeds (a failure raises CalledProcessError because of
check=True), and whether the delete path leaves the rules gone. -/
structure WinEnv where
  isAdmin : Bool
  rulesPresentBefore : Bool
  addBlockOk : Bool
  addAllowOk : Bool
  verifiedAfterAdd : Bool
  rulesGoneAfterDelete : Bool
deriving DecidableEq, Repr

/-- `disable_lockdown_windows` (lockdown.py 270-326): without admin,
clear both flags; with admin, run the check=False deletes, verify, set
active to False unconditionally (line 325) and clear rules_applied only
when removal verified (lines 313-316). Returns the success flag. -/
def disable_lockdown_windows (s : LockState) (env : WinEnv) :
    LockState × Bool :=
  if !env.isAdmin then ({ active := false, rules_applied := false }, true)
  else if env.rulesGoneAfterDelete then
    ({ active := false, rules_applied := false }, true)
  else
    ({ active := false, rules_applied := s.rules_applied }, false)

/-- `enable_lockdown_windows` (lockdown.py 194-267): without admin,
demo mode with active=True, rules_applied=False; with admin, clean up a
pre-existing rule set, add the block and allow rules (an exception sets
both flags to False), then verify: on verification success set both
flags True, on verification FAILURE set active=True with
rules_applied=False (lines 252-256). -/
def enable_lockdown_windows (s : LockState) (env : WinEnv) :
    LockState × Bool :=
  if !env.isAdmin then ({ active := true, rules_applied := false }, false)
  else
    let s1 := if env.rulesPresentBefore then
      (disable_lockdown_windows s env).1 else s
    if !env.addBlockOk then ({ active := false, rules_applied := false }, false)
    else if !env.addAllowOk then
      ({ active := false, rules_applied := false }, false)
    else if env.verifiedAfterAdd then
      ({ active := true, rules_applied := true }, true)
    else
      let _ := s1
      ({ active := true, rules_applied := false }, false)

/-- The firewall tool `check_firewall_tool` detects (lockdown.py
65-99). -/
inductive FwTool where
  | ufw
  | iptables
deriving DecidableEq, Repr

/-- Host observations driving the Unix paths. -/
structure UnixEnv where
  isAdmin : Bool
  tool : Option FwTool
  rulesPresentBefore : Bool
  addRule1Ok : Bool
  addRule2Ok : Bool
  verifiedAfterAdd : Bool
  rulesGoneAfterDelete : Bool
deriving DecidableEq, Repr

/-- `disable_lockdown_unix` (lockdown.py 438-511): without admin, clear
both flags; with admin, run the check=False deletes (success means
verification shows the rules gone, always true with no tool), then set
active to False unconditionally and clear rules_applied only on success
(lines 509-510). -/
def disable_lockdown_unix (s : LockState) (env : UnixEnv) :
    LockState × Bool :=
  if !env.isAdmin then ({ active := false, rules_applied := false }, true)
  else
    match env.tool with
    | none => ({ active := false, rules_applied := false }, true)
    | some _ =>
        if env.rulesGoneAfterDelete then
          ({ active := false, rules_applied := false }, true)
        else ({ active := false, rules_applied := s.rules_applied }, false)

/-- `enable_lockdown_unix` (lockdown.py 333-435): without admin or
without a firewall tool, demo mode with active=True,
rules_applied=False; with a tool, clean up pre-existing rules, add the
two rules (an exception sets both flags to False), then verify: success
sets both flags True; a verification failure falls through to the
final `return False` with the state untouched (lines 374-379 and
435). -/
def enable_lockdown_unix (s : LockState) (env : UnixEnv) :
    LockState × Bool :=
  if !env.isAdmin then ({ active := true, rules_applied := false }, false)
  else
    match env.tool with
    | none => ({ active := true, rules_applied := false }, false)
    | some _ =>
        let s1 := if env.rulesPresentBefore then
          (disable_lockdown_unix s env).1 else s
        if !env.addRule1Ok then
          ({ active := false, rules_applied := false }, false)
        else if !env.addRule2Ok then
          ({ active := false, rules_applied := false }, false)
        else if env.verifiedAfterAdd then
          ({ active := true, rules_applied := true }, true)
        else (s1, false)

/-- `enable` (lockdown.py 518-538): under the lock, an already active
lockdown is a no-op returning the applied flag; otherwise dispatch by
platform. -/
def lockdown_enable (isWindows : Bool) (s : LockState) (wenv : WinEnv)
    (uenv : UnixEnv) : LockState × Bool :=
  if s.active then (s, s.rules_applied)
  else if isWindows then enable_lockdown_windows s wenv
  else enable_lockdown_unix s uenv

/-- The inactive initial state. -/
def lockInit : LockState := { active := false, rules_applied := false }

/-- A privileged Windows environment where both rules apply cleanly but
the post-insertion verification fails. -/
def winVerifyFail : WinEnv :=
  { isAdmin := true, rulesPresentBefore := false, addBlockOk := true,
    addAllowOk := true, verifiedAfterAdd := false,
    rulesGoneAfterDelete := true }

/-- An arbitrary Unix environment (unused by the Windows dispatch). -/
def unixAny : UnixEnv :=
  { isAdmin := true, tool := some .ufw, rulesPresentBefore := false,
    addRule1Ok := true, addRule2Ok := true, verifiedAfterAdd := true,
    rulesGoneAfterDelete := true }

/-- C9 counterexample: a privileged Windows enable whose rule
verification fails reports failure but leaves active = true (with
rules_applied = false), so the tracked state is not left with
active = false. -/
theorem c9_counterexample :
    (lockdown_enable true lockInit winVerifyFail unixAny).2 = false ∧
      (lockdown_enable true lockInit winVerifyFail unixAny).1.active = true ∧
      (lockdown_enable true lockInit winVerifyFail unixAny).1.rules_applied
        = false :=
  ⟨by decide, by decide, by decide⟩

/-- C9 (amended): with privilege, an exception while applying the rules
leaves active = false on both platforms, and a verification failure
leaves active = false on the Unix path; but on the Windows path a
verification failure after the rules applied cleanly sets active = true
with rules_applied = false. -/
theorem c9_enable_failure_state (s : LockState) (wenv : WinEnv)
    (uenv : UnixEnv) :
    (wenv.isAdmin = true →
      (wenv.addBlockOk = false ∨ (wenv.addBlockOk = true ∧
          wenv.addAllowOk = false)) →
      (enable_lockdown_windows s wenv).1
          = { active := false, rules_applied := false } ∧
        (enable_lockdown_windows s wenv).2 = false) ∧
    (uenv.isAdmin = true → uenv.tool.isSome = true →
      (uenv.addRule1Ok = false ∨ (uenv.addRule1Ok = true ∧
          uenv.addRule2Ok = false)) →
      (enable_lockdown_unix s uenv).1
          = { active := false, rules_applied := false } ∧
        (enable_lockdown_unix s uenv).2 = false) ∧
    (s.active = false → uenv.isAdmin = true → uenv.tool.isSome = true →
      uenv.addRule1Ok = true → uenv.addRule2Ok = true →
      uenv.verifiedAfterAdd = false →
      (enable_lockdown_unix s uenv).1.active = false ∧
        (enable_lockdown_unix s uenv).2 = false) ∧
    (wenv.isAdmin = true → wenv.addBlockOk = true → wenv.addAllowOk = true →
      wenv.verifiedAfterAdd = false →
      (enable_lockdown_windows s wenv).1
          = { active := true, rules_applied := false } ∧
        (enable_lockdown_windows s wenv).2 = false) := by
  refine ⟨?_, ?_, ?_, ?_⟩
  · rintro ha (hb | ⟨hb, hc⟩) <;>
      simp [enable_lockdown_windows, ha, hb, *]
  · rintro ha ht (hb | ⟨hb, hc⟩) <;>
      cases htool : uenv.tool <;>
      simp [enable_lockdown_unix, ha, hb, htool, *] <;>
      simp [htool] at ht
  · intro hs ha ht h1 h2 hv
    cases htool : uenv.tool with
    | none => simp [htool] at ht
    | some t =>
        by_cases hp : uenv.rulesPresentBefore
        · by_cases hg : uenv.rulesGoneAfterDelete <;>
            simp [enable_lockdown_unix, disable_lockdown_unix, ha, htool,
              h1, h2, hv, hp, hg]
        · simp [enable_lockdown_unix, ha, htool, h1, h2, hv, hp, hs]
  · intro ha hb hc hv
    simp [enable_lockdown_windows, ha, hb, hc, hv]

/-- C9 witness: the amended Windows verification-failure conjunct and
the Unix exception conjunct, applied at concrete environments. -/
theorem c9_witness :
    ((enable_lockdown_windows lockInit winVerifyFail).1
        = { active := true, rules_applied := false } ∧
      (enable_lockdown_windows lockInit winVerifyFail).2 = false) ∧
      ((enable_lockdown_unix lockInit
          { unixAny with addRule1Ok := false }).1
        = { active := false, rules_applied := false } ∧
      (enable_lockdown_unix lockInit
          { unixAny with addRule1Ok := false }).2 = false) :=
  ⟨(c9_enable_failure_state lockInit winVerifyFail unixAny).2.2.2
      rfl rfl rfl rfl,
    (c9_enable_failure_state lockInit winVerifyFail
      { unixAny with addRule1Ok := false }).2.1 rfl rfl (Or.inl rfl)⟩

/-! # Claim C10: the plagiarism corpus is the current snapshots -/

/-- One scan step of `check_plagiarism`, expressed through the single
snapshot it consults. -/
theorem check_cons_eq (sim : String → String → ℚ) (sub : SubmissionInfo)
    (user : String) (data : Entry) (rest : Board) :
    check_plagiarism sim sub ((user, data) :: rest)
      = if user = sub.participant_name then check_plagiarism sim sub rest
        else
          match snapshotCode sub data with
          | none => check_plagiarism sim sub rest
          | some c =>
              if c = "" then check_plagiarism sim sub rest
              else if SIMILARITY_THRESHOLD ≤ sim sub.code c then
                (true, plagMessage sub.participant_name user (sim sub.code c))
              else check_plagiarism sim sub rest := by
  by_cases hu : user = sub.participant_name
  · simp [check_plagiarism, hu]
  · cases hg : getKey data.problems_solved sub.problem_id with
    | none => simp [check_plagiarism, hu, snapshotCode, hg]
    | some r =>
        cases hc : r.code with
        | none => simp [check_plagiarism, hu, snapshotCode, hg, hc]
        | some c0 => simp [check_plagiarism, hu, snapshotCode, hg, hc]

/-- What the detector can see of a scoreboard: for each stored user in
order, that user's single current code snapshot for the submission's
problem. -/
def codeView (sub : SubmissionInfo) (board : Board) :
    List (String × Option String) :=
  board.map (fun p => (p.1, snapshotCode sub p.2))

/-- C10: (1) after every scoreboard update, whatever the verdict, the
participant's current record for the problem carries exactly the new
submission's code, overwriting the previous snapshot, so each user's
stored snapshot is their most recent prior submission; (2) the
detector's entire result is a function of the scanned users and their
current snapshots alone, so earlier submissions are never consulted;
(3) a scanned entry whose snapshot is missing or empty is skipped as
clean. -/
theorem c10_snapshot_corpus :
    (∀ (board : Board) (sub : SubmissionInfo) (verdict details : String)
        (plag : Bool) (now : Nat),
      ∃ r, recordOf (apply_scoreboard_update board sub verdict details plag now)
          sub.participant_name sub.problem_id = some r ∧
        r.code = some sub.code ∧ r.verdict = verdict) ∧
    (∀ (sim : String → String → ℚ) (sub : SubmissionInfo) (b₁ b₂ : Board),
      codeView sub b₁ = codeView sub b₂ →
        check_plagiarism sim sub b₁ = check_plagiarism sim sub b₂) ∧
    (∀ (sim : String → String → ℚ) (sub : SubmissionInfo) (user : String)
        (data : Entry) (rest : Board),
      (snapshotCode sub data = none ∨ snapshotCode sub data = some "") →
        check_plagiarism sim sub ((user, data) :: rest)
          = check_plagiarism sim sub rest) := by
  refine ⟨?_, ?_, ?_⟩
  · intro board sub verdict details plag now
    have h : recordOf (apply_scoreboard_update board sub verdict details
          plag now) sub.participant_name sub.problem_id
        = some { verdict := verdict, timestamp := now,
                 code := some sub.code,
                 details := if details = "" then none else some details } := by
      unfold recordOf
      rw [apply_update_entry]
      by_cases hv : verdict = "Accepted" ∧ plag = false
      · simp [hv, getKey_setKey_self]
      · simp [hv, getKey_setKey_self]
    exact ⟨_, h, rfl, rfl⟩
  · intro sim sub b₁
    induction b₁ with
    | nil =>
        intro b₂ h
        cases b₂ with
        | nil => rfl
        | cons q t₂ => simp [codeView] at h
    | cons p t ih =>
        intro b₂ h
        obtain ⟨u, d⟩ := p
        cases b₂ with
        | nil => simp [codeView] at h
        | cons q t₂ =>
            obtain ⟨u₂, d₂⟩ := q
            simp only [codeView, List.map_cons, List.cons.injEq,
              Prod.mk.injEq] at h
            obtain ⟨⟨hu, hsnap⟩, htail⟩ := h
            subst hu
            rw [check_cons_eq, check_cons_eq, hsnap,
              ih t₂ (by simpa [codeView] using htail)]
  · intro sim sub user data rest h
    rw [check_cons_eq]
    by_cases hu : user = sub.participant_name
    · simp [hu]
    · rcases h with h | h <;> simp [hu, h]

/-- An entry whose current P1 record has no code snapshot. -/
def entryNoCode : Entry :=
  { score := 0,
    problems_solved := [("P1",
      { verdict := "Wrong Answer", timestamp := 0, code := none,
        details := none })] }

/-- C10 witness: a record lacking a code snapshot is skipped: scanning
just that entry gives the same (clean) result as scanning nothing. -/
theorem c10_witness :
    snapshotCode subAlice entryNoCode = none ∧
      check_plagiarism simHigh subAlice [("bob", entryNoCode)]
        = check_plagiarism simHigh subAlice [] :=
  ⟨rfl, c10_snapshot_corpus.2.2 simHigh subAlice "bob" entryNoCode []
    (Or.inl rfl)⟩

end Shunyata
